import Mathlib

/-!
Verification of the core valuation / line-suggestion algorithm of the
Statbotics FRC betting prototype (src/statbotics_frc_betting_app.js).

The JavaScript core is three pure functions over IEEE doubles:
  computeTeamValue, computeAllianceValue, suggestOverUnder.
We embed them over the rationals: every decimal literal of the source is an
exact rational, and JavaScript Math.round (round half toward positive
infinity) coincides with Mathlib round (round x = Int.floor (x + 1/2)).
Where JavaScript number semantics depart from field arithmetic in a way
that matters for the claims — division by zero (1/0 = Infinity in JS) and
overflow of a computed magnitude beyond the largest finite double — we
model the departure with an Option-valued variant of the team valuation,
where none stands for a non-finite (Infinity) result.
-/

namespace Betting

/-- Constant EPS from the source: epsilon added to win probability before
inverting (line 69). -/
def EPS : ℚ := 0.001

/-- Constant SCALE_EPA from the source (line 73). -/
def SCALE_EPA : ℚ := 10.0

/-- Constant MIN_TEAM_VALUE from the source (line 76). -/
def MIN_TEAM_VALUE : ℚ := 1.0

/-- A team input record {rank, epa, win_prob}. The team_key string is
carried by the JS objects but never read by the core math, so it is
omitted here. -/
structure Team where
  rank : ℕ
  epa : ℚ
  win_prob : ℚ
deriving DecidableEq, Repr

/-- The record returned by computeTeamValue: rawValue, clamped value, and
the components breakdown {epaFactor, rankMul, winFactor}. -/
structure TeamValue where
  rawValue : ℚ
  value : ℚ
  epaFactor : ℚ
  rankMul : ℚ
  winFactor : ℚ
deriving DecidableEq, Repr

/-- getRankMultiplier (source lines 57-66, 82-84): the RANK_MULTIPLIERS
table for ranks 1..8, falling back to 1.0 for any other rank. -/
def getRankMultiplier (rank : ℕ) : ℚ :=
  if rank = 1 then 1.10
  else if rank = 2 then 1.08
  else if rank = 3 then 1.06
  else if rank = 4 then 1.04
  else if rank = 5 then 1.02
  else if rank = 6 then 1.01
  else if rank = 7 then 1.005
  else if rank = 8 then 1.001
  else 1.0

/-- computeTeamValue (source lines 86-106), over exact rationals.
Note: Lean division is total with q / 0 = 0; the case where the source
divides by zero (win_prob + EPS = 0) is treated faithfully by
computeTeamValueJS below. -/
def computeTeamValue (t : Team) : TeamValue :=
  let epaFactor := max 0.01 (t.epa / SCALE_EPA)
  let rankMul := getRankMultiplier t.rank
  let winFactor := 1 / (t.win_prob + EPS)
  let rawValue := epaFactor * rankMul * winFactor
  let value := max MIN_TEAM_VALUE rawValue
  ⟨rawValue, value, epaFactor, rankMul, winFactor⟩

/-- The largest finite IEEE-754 double, (2^53 - 1) * 2^971, about
1.7976931348623157e308. -/
def MAX_DOUBLE : ℚ := (2 ^ 53 - 1) * 2 ^ 971

/-- A JavaScript arithmetic result is a finite number only when its
magnitude stays within the double range; a larger magnitude overflows to
plus or minus Infinity, modelled as none. -/
def jsNum (x : ℚ) : Option ℚ :=
  if -MAX_DOUBLE ≤ x ∧ x ≤ MAX_DOUBLE then some x else none

/-- JavaScript division: x / 0 yields Infinity (for x > 0), and a
quotient beyond the double range overflows to Infinity; both non-finite
outcomes are none. -/
def jsDiv (a b : ℚ) : Option ℚ :=
  if b = 0 then none else jsNum (a / b)

/-- computeTeamValue with JavaScript number semantics on the computed
quantities of source lines 88-99: the winFactor division 1 / (win_prob +
EPS) is none on a zero denominator (1/0 = Infinity in JS), and each
computed factor is none when it overflows the double range. A none
result means the JS code would produce a non-finite (Infinity) field,
which then propagates to rawValue and value. -/
def computeTeamValueJS (t : Team) : Option TeamValue :=
  (jsNum (max 0.01 (t.epa / SCALE_EPA))).bind fun epaFactor =>
    (jsDiv 1 (t.win_prob + EPS)).bind fun winFactor =>
      (jsNum (epaFactor * getRankMultiplier t.rank * winFactor)).bind fun rawValue =>
        some ⟨rawValue, max MIN_TEAM_VALUE rawValue, epaFactor,
          getRankMultiplier t.rank, winFactor⟩

/-- The record returned by computeAllianceValue (source line 113). -/
structure AllianceValuation where
  teams : List (Team × TeamValue)
  allianceValue : ℚ
  allianceEPA : ℚ
deriving DecidableEq, Repr

/-- computeAllianceValue (source lines 108-114): per-team valuations, the
sum of clamped values, and the sum of raw EPAs (t.epa || 0 on a numeric
epa is epa itself, with 0 for 0). -/
def computeAllianceValue (teamObjs : List Team) : AllianceValuation :=
  let teams := teamObjs.map fun t => (t, computeTeamValue t)
  let allianceValue := teams.foldl (fun s t => s + t.2.value) 0
  let allianceEPA := teams.foldl (fun s t => s + t.1.epa) 0
  ⟨teams, allianceValue, allianceEPA⟩

/-- Math.round(x * 10) / 10: round to one decimal, halves toward plus
infinity, exactly JavaScript Math.round on exact inputs. -/
def round1 (x : ℚ) : ℚ :=
  ((round (x * 10) : ℤ) : ℚ) / 10

/-- Math.round(x * 100) / 100: round to two decimals. -/
def round2 (x : ℚ) : ℚ :=
  ((round (x * 100) : ℤ) : ℚ) / 100

/-- Models the JavaScript idiom `x || 1` on a number: 0 is falsy, so a
zero denominator is replaced by 1 (source lines 124-125, 140). -/
def jsOrOne (x : ℚ) : ℚ :=
  if x = 0 then 1 else x

/-- Per-side part of the suggestion record (source lines 148-149). -/
structure SideSuggestion where
  line : ℚ
  allianceValue : ℚ
  payoutMultiplier : ℚ
deriving DecidableEq, Repr

/-- The record returned by suggestOverUnder (source lines 144-151). -/
structure Suggestion where
  baseLine : ℚ
  matchLine : ℚ
  red : SideSuggestion
  blue : SideSuggestion
deriving DecidableEq, Repr

/-- baseLine (source line 119): mean of the alliance EPAs, rounded to one
decimal. -/
def baseLineOf (red blue : AllianceValuation) : ℚ :=
  round1 ((red.allianceEPA + blue.allianceEPA) / 2)

/-- totalValue (source line 123). -/
def totalValueOf (red blue : AllianceValuation) : ℚ :=
  red.allianceValue + blue.allianceValue

/-- redShare (source line 124): allianceValue / (totalValue || 1). -/
def redShareOf (red blue : AllianceValuation) : ℚ :=
  red.allianceValue / jsOrOne (totalValueOf red blue)

/-- blueShare (source line 125). -/
def blueShareOf (red blue : AllianceValuation) : ℚ :=
  blue.allianceValue / jsOrOne (totalValueOf red blue)

/-- redDelta (source line 129): (share - 0.5) * 0.2 * baseLine. -/
def redDeltaOf (red blue : AllianceValuation) : ℚ :=
  (redShareOf red blue - 0.5) * 0.2 * baseLineOf red blue

/-- blueDelta (source line 130). -/
def blueDeltaOf (red blue : AllianceValuation) : ℚ :=
  (blueShareOf red blue - 0.5) * 0.2 * baseLineOf red blue

/-- redLine (source line 132). -/
def redLineOf (red blue : AllianceValuation) : ℚ :=
  round1 (baseLineOf red blue + redDeltaOf red blue)

/-- blueLine (source line 133). -/
def blueLineOf (red blue : AllianceValuation) : ℚ :=
  round1 (baseLineOf red blue + blueDeltaOf red blue)

/-- matchLine (source line 136): average of the two per-side lines,
rounded to one decimal. -/
def matchLineOf (red blue : AllianceValuation) : ℚ :=
  round1 ((redLineOf red blue + blueLineOf red blue) / 2)

/-- avgValue (source line 140): mean alliance value, or 1 when that mean
is zero. -/
def avgValueOf (red blue : AllianceValuation) : ℚ :=
  jsOrOne ((red.allianceValue + blue.allianceValue) / 2)

/-- redPayout before the 2-decimal rounding (source line 141). -/
def redPayoutOf (red blue : AllianceValuation) : ℚ :=
  max 1.01 (1 + (1 - red.allianceValue / avgValueOf red blue) * 0.5)

/-- bluePayout before the 2-decimal rounding (source line 142). -/
def bluePayoutOf (red blue : AllianceValuation) : ℚ :=
  max 1.01 (1 + (1 - blue.allianceValue / avgValueOf red blue) * 0.5)

/-- suggestOverUnder (source lines 117-152). -/
def suggestOverUnder (red blue : AllianceValuation) : Suggestion :=
  ⟨baseLineOf red blue, matchLineOf red blue,
   ⟨redLineOf red blue, red.allianceValue, round2 (redPayoutOf red blue)⟩,
   ⟨blueLineOf red blue, blue.allianceValue, round2 (bluePayoutOf red blue)⟩⟩

/-! ### Basic lemmas -/

/-- Every rank multiplier, table entry or fallback, is at least 1. -/
lemma one_le_getRankMultiplier (rank : ℕ) : 1 ≤ getRankMultiplier rank := by
  unfold getRankMultiplier
  split_ifs <;> norm_num

/-- Every rank multiplier is positive. -/
lemma getRankMultiplier_pos (rank : ℕ) : 0 < getRankMultiplier rank :=
  lt_of_lt_of_le one_pos (one_le_getRankMultiplier rank)

/-- Every rank multiplier, table entry or fallback, is at most 1.1. -/
lemma getRankMultiplier_le (rank : ℕ) : getRankMultiplier rank ≤ 1.1 := by
  unfold getRankMultiplier
  split_ifs <;> norm_num

/-- jsNum is the identity on values within the double range. -/
lemma jsNum_of_bounds {x : ℚ} (h1 : -MAX_DOUBLE ≤ x) (h2 : x ≤ MAX_DOUBLE) :
    jsNum x = some x := by
  rw [jsNum, if_pos ⟨h1, h2⟩]

/-- The epaFactor component is at least 0.01. -/
lemma epaFactor_ge (t : Team) : (0.01 : ℚ) ≤ (computeTeamValue t).epaFactor :=
  le_max_left _ _

/-- The epaFactor component is positive. -/
lemma epaFactor_pos (t : Team) : 0 < (computeTeamValue t).epaFactor :=
  lt_of_lt_of_le (by norm_num) (epaFactor_ge t)

/-- round is monotone on the rationals. -/
lemma round_mono {x y : ℚ} (h : x ≤ y) : round x ≤ round y := by
  rw [round_eq, round_eq]
  exact Int.floor_le_floor (by linarith)

/-- round1 applied to a value that is already an integer multiple of one
tenth returns it unchanged, so round1 is idempotent. -/
lemma round1_round1 (x : ℚ) : round1 (round1 x) = round1 x := by
  unfold round1
  rw [div_mul_cancel₀ _ (by norm_num : (10 : ℚ) ≠ 0), round_intCast]

lemma computeTeamValue_rawValue (t : Team) :
    (computeTeamValue t).rawValue =
      max 0.01 (t.epa / SCALE_EPA) * getRankMultiplier t.rank *
        (1 / (t.win_prob + EPS)) := rfl

lemma computeTeamValue_value (t : Team) :
    (computeTeamValue t).value =
      max MIN_TEAM_VALUE (computeTeamValue t).rawValue := rfl

lemma computeTeamValue_winFactor (t : Team) :
    (computeTeamValue t).winFactor = 1 / (t.win_prob + EPS) := rfl

/-- round2 leaves the constant 1.01 fixed. -/
lemma round2_const : round2 1.01 = 1.01 := by
  have h : (1.01 : ℚ) * 100 = ((101 : ℤ) : ℚ) := by norm_num
  rw [round2, h, round_intCast]
  norm_num

/-- round2 never takes a value that is at least 1.01 below 1.01. -/
lemma le_round2 {x : ℚ} (h : 1.01 ≤ x) : 1.01 ≤ round2 x := by
  have h1 : ((101 : ℤ) : ℚ) ≤ x * 100 := by push_cast; nlinarith
  have h2 : (101 : ℤ) ≤ round (x * 100) := by
    have h3 := round_mono h1
    rwa [round_intCast] at h3
  have h4 : ((101 : ℤ) : ℚ) ≤ ((round (x * 100) : ℤ) : ℚ) := by exact_mod_cast h2
  rw [round2]
  calc (1.01 : ℚ) = ((101 : ℤ) : ℚ) / 100 := by norm_num
  _ ≤ ((round (x * 100) : ℤ) : ℚ) / 100 := by gcongr

/-- round1 of a baseLine is the baseLine itself, since baseLine is already
rounded to one decimal. -/
lemma round1_baseLineOf (a b : AllianceValuation) :
    round1 (baseLineOf a b) = baseLineOf a b :=
  round1_round1 _

/-! ### Claim theorems -/

/-- C1: for every pair of alliance valuations passed to suggestOverUnder,
each side's returned payoutMultiplier (after the 2-decimal rounding) is at
least 1.01, for any input combination including extreme skew between the
two allianceValues. -/
theorem payout_multiplier_ge_min (red blue : AllianceValuation) :
    1.01 ≤ (suggestOverUnder red blue).red.payoutMultiplier ∧
    1.01 ≤ (suggestOverUnder red blue).blue.payoutMultiplier := by
  constructor
  · show 1.01 ≤ round2 (redPayoutOf red blue)
    exact le_round2 (le_max_left _ _)
  · show 1.01 ≤ round2 (bluePayoutOf red blue)
    exact le_round2 (le_max_left _ _)

/-- C2: for every team, the value field of computeTeamValue is at least
the floor MIN_TEAM_VALUE = 1.0, and the clamp is a one-sided max: it never
reduces a rawValue already at or above the floor, while rawValue itself
may fall below the floor (as it does at rank 1, epa 0, win_prob 0.5). -/
theorem team_value_clamped :
    (∀ t : Team, MIN_TEAM_VALUE ≤ (computeTeamValue t).value ∧
      (MIN_TEAM_VALUE ≤ (computeTeamValue t).rawValue →
        (computeTeamValue t).value = (computeTeamValue t).rawValue)) ∧
    ∃ t : Team, (computeTeamValue t).rawValue < MIN_TEAM_VALUE := by
  refine ⟨fun t => ⟨?_, fun h => ?_⟩, ⟨⟨1, 0, 0.5⟩, ?_⟩⟩
  · rw [computeTeamValue_value]
    exact le_max_left _ _
  · rw [computeTeamValue_value]
    exact max_eq_right h
  · norm_num [computeTeamValue, getRankMultiplier, EPS, SCALE_EPA, MIN_TEAM_VALUE]

/-- Witness for C2: at rank 1, epa 100, win_prob 0, the rawValue is above
the floor and the clamp leaves it unchanged. -/
theorem team_value_clamped_witness :
    MIN_TEAM_VALUE ≤ (computeTeamValue ⟨1, 100, 0⟩).rawValue ∧
    (computeTeamValue ⟨1, 100, 0⟩).value = (computeTeamValue ⟨1, 100, 0⟩).rawValue := by
  have h : MIN_TEAM_VALUE ≤ (computeTeamValue ⟨1, 100, 0⟩).rawValue := by
    norm_num [computeTeamValue, getRankMultiplier, EPS, SCALE_EPA, MIN_TEAM_VALUE]
  exact ⟨h, (team_value_clamped.1 ⟨1, 100, 0⟩).2 h⟩

/-- C3 counterexample: the claim that computeTeamValue never returns
Infinity for any numeric inputs fails at two concrete inputs. At
win_prob = -0.001 the denominator win_prob + EPS of winFactor is exactly
0 (the sum cancels exactly in doubles too), the JS division 1 / 0 yields
Infinity, and the whole valuation is non-finite (modelled as none). At
epa = 1e307 with win_prob = 0, rawValue = 1e306 * 1.1 * 1000 = 1.1e309
exceeds the largest finite double, so the JS product overflows to
Infinity. -/
theorem team_value_infinite_inputs :
    computeTeamValueJS ⟨1, 1, -0.001⟩ = none ∧
    computeTeamValueJS ⟨1, 1e307, 0⟩ = none := by
  constructor
  · norm_num [computeTeamValueJS, jsNum, jsDiv, EPS, SCALE_EPA, MAX_DOUBLE,
      getRankMultiplier, max_def]
  · norm_num [computeTeamValueJS, jsNum, jsDiv, EPS, SCALE_EPA, MAX_DOUBLE,
      getRankMultiplier, max_def]

/-- C3 amended: for any rank, any win_prob ≥ 0 (including 0 and values
above 1), and any epa of magnitude at most 1e300 (comfortably inside the
double range), computeTeamValue does not throw, no computed field is NaN
or Infinity, and the winFactor is the genuine finite reciprocal of
win_prob + EPS; the guarantee fails at win_prob = -epsilon (division by
zero) and at double-overflow magnitudes of epa. -/
theorem team_value_finite_in_range (t : Team)
    (h0 : 0 ≤ t.win_prob) (he : |t.epa| ≤ 1e300) :
    computeTeamValueJS t = some (computeTeamValue t) ∧
    (computeTeamValue t).winFactor * (t.win_prob + EPS) = 1 := by
  have hEPS : (0 : ℚ) < EPS := by norm_num [EPS]
  have hd : 0 < t.win_prob + EPS := by linarith
  have hdne : t.win_prob + EPS ≠ 0 := ne_of_gt hd
  have hF1 : (0.01 : ℚ) ≤ max 0.01 (t.epa / SCALE_EPA) := le_max_left _ _
  have hF2 : max (0.01 : ℚ) (t.epa / SCALE_EPA) ≤ 1e299 := by
    apply max_le (by norm_num)
    rw [div_le_iff₀ (by norm_num [SCALE_EPA] : (0 : ℚ) < SCALE_EPA)]
    calc t.epa ≤ 1e300 := (abs_le.mp he).2
    _ = 1e299 * 10 := by norm_num
    _ = 1e299 * SCALE_EPA := by norm_num [SCALE_EPA]
  have hW1 : 0 < 1 / (t.win_prob + EPS) := by positivity
  have hW2 : 1 / (t.win_prob + EPS) ≤ 1000 := by
    rw [div_le_iff₀ hd]
    have h5 : EPS = 1 / 1000 := by norm_num [EPS]
    rw [h5]
    linarith
  have hR1 : (1 : ℚ) ≤ getRankMultiplier t.rank := one_le_getRankMultiplier t.rank
  have hR2 : getRankMultiplier t.rank ≤ 1.1 := getRankMultiplier_le t.rank
  have hFR : max (0.01 : ℚ) (t.epa / SCALE_EPA) * getRankMultiplier t.rank ≤
      1e299 * 1.1 :=
    mul_le_mul hF2 hR2 (by linarith) (by norm_num)
  have hraw1 : 0 ≤ max (0.01 : ℚ) (t.epa / SCALE_EPA) * getRankMultiplier t.rank *
      (1 / (t.win_prob + EPS)) :=
    mul_nonneg (mul_nonneg (by linarith) (by linarith)) hW1.le
  have hraw2 : max (0.01 : ℚ) (t.epa / SCALE_EPA) * getRankMultiplier t.rank *
      (1 / (t.win_prob + EPS)) ≤ 1e299 * 1.1 * 1000 :=
    mul_le_mul hFR hW2 hW1.le (by norm_num)
  have g1 : jsNum (max 0.01 (t.epa / SCALE_EPA)) =
      some (max 0.01 (t.epa / SCALE_EPA)) :=
    jsNum_of_bounds
      (le_trans (by norm_num [MAX_DOUBLE]) hF1)
      (le_trans hF2 (by norm_num [MAX_DOUBLE]))
  have g2 : jsDiv 1 (t.win_prob + EPS) = some (1 / (t.win_prob + EPS)) := by
    rw [jsDiv, if_neg hdne]
    exact jsNum_of_bounds
      (le_trans (by norm_num [MAX_DOUBLE]) hW1.le)
      (le_trans hW2 (by norm_num [MAX_DOUBLE]))
  have g3 : jsNum (max 0.01 (t.epa / SCALE_EPA) * getRankMultiplier t.rank *
      (1 / (t.win_prob + EPS))) =
      some (max 0.01 (t.epa / SCALE_EPA) * getRankMultiplier t.rank *
        (1 / (t.win_prob + EPS))) :=
    jsNum_of_bounds
      (le_trans (by norm_num [MAX_DOUBLE]) hraw1)
      (le_trans hraw2 (by norm_num [MAX_DOUBLE]))
  constructor
  · simp only [computeTeamValueJS, g1, g2, g3, Option.some_bind]
    rfl
  · rw [computeTeamValue_winFactor]
    exact one_div_mul_cancel hdne

/-- Witness for the amended C3: at rank 1, epa 10, win_prob 0.5, both
range hypotheses hold and the JS-semantics valuation is the finite one. -/
theorem team_value_total_witness :
    ((0 : ℚ) ≤ 0.5 ∧ |(10 : ℚ)| ≤ 1e300) ∧
    (computeTeamValueJS ⟨1, 10, 0.5⟩ = some (computeTeamValue ⟨1, 10, 0.5⟩) ∧
     (computeTeamValue ⟨1, 10, 0.5⟩).winFactor * ((0.5 : ℚ) + EPS) = 1) := by
  have h0 : (0 : ℚ) ≤ 0.5 := by norm_num
  have he : |(10 : ℚ)| ≤ 1e300 := by
    rw [abs_of_nonneg (by norm_num : (0 : ℚ) ≤ 10)]
    norm_num
  exact ⟨⟨h0, he⟩, team_value_finite_in_range ⟨1, 10, 0.5⟩ h0 he⟩

/-- C4: holding rank and epa fixed, computeTeamValue is monotonically
decreasing in win_prob over the win-probability domain: for
0 ≤ p1 ≤ p2, the value at p1 is at least the value at p2 (with equality
in particular where both sides are clamped at the floor). -/
theorem value_antitone_in_win_prob (rank : ℕ) (epa p1 p2 : ℚ)
    (h0 : 0 ≤ p1) (h12 : p1 ≤ p2) :
    (computeTeamValue ⟨rank, epa, p2⟩).value ≤
      (computeTeamValue ⟨rank, epa, p1⟩).value := by
  have hEPS : (0 : ℚ) < EPS := by norm_num [EPS]
  have hd1 : 0 < p1 + EPS := by linarith
  have hw : 1 / (p2 + EPS) ≤ 1 / (p1 + EPS) :=
    one_div_le_one_div_of_le hd1 (by linarith)
  have hraw : (computeTeamValue ⟨rank, epa, p2⟩).rawValue ≤
      (computeTeamValue ⟨rank, epa, p1⟩).rawValue := by
    rw [computeTeamValue_rawValue, computeTeamValue_rawValue]
    exact mul_le_mul_of_nonneg_left hw
      (mul_nonneg (le_trans (by norm_num) (le_max_left _ _))
        (getRankMultiplier_pos rank).le)
  rw [computeTeamValue_value, computeTeamValue_value]
  exact max_le_max le_rfl hraw

/-- Witness for C4: at rank 1, epa 100, the value at win_prob 0.8 is at
most the value at win_prob 0.2. -/
theorem value_antitone_in_win_prob_witness :
    ((0 : ℚ) ≤ 0.2 ∧ (0.2 : ℚ) ≤ 0.8) ∧
    (computeTeamValue ⟨1, 100, 0.8⟩).value ≤
      (computeTeamValue ⟨1, 100, 0.2⟩).value :=
  ⟨⟨by norm_num, by norm_num⟩,
   value_antitone_in_win_prob 1 100 0.2 0.8 (by norm_num) (by norm_num)⟩

/-- C5: holding rank and win_prob fixed (win_prob in its domain),
computeTeamValue is monotonically non-decreasing in epa: for e1 ≤ e2, the
value at e1 is at most the value at e2 (with equality in particular where
both sides are clamped at the floor). -/
theorem value_monotone_in_epa (rank : ℕ) (p e1 e2 : ℚ)
    (h0 : 0 ≤ p) (h12 : e1 ≤ e2) :
    (computeTeamValue ⟨rank, e1, p⟩).value ≤
      (computeTeamValue ⟨rank, e2, p⟩).value := by
  have hEPS : (0 : ℚ) < EPS := by norm_num [EPS]
  have hd : 0 < p + EPS := by linarith
  have hw : 0 ≤ 1 / (p + EPS) := by positivity
  have hepa : max (0.01 : ℚ) (e1 / SCALE_EPA) ≤ max 0.01 (e2 / SCALE_EPA) := by
    apply max_le_max le_rfl
    exact (div_le_div_iff_of_pos_right (by norm_num [SCALE_EPA])).mpr h12
  have hraw : (computeTeamValue ⟨rank, e1, p⟩).rawValue ≤
      (computeTeamValue ⟨rank, e2, p⟩).rawValue := by
    rw [computeTeamValue_rawValue, computeTeamValue_rawValue]
    exact mul_le_mul_of_nonneg_right
      (mul_le_mul_of_nonneg_right hepa (getRankMultiplier_pos rank).le) hw
  rw [computeTeamValue_value, computeTeamValue_value]
  exact max_le_max le_rfl hraw

/-- Witness for C5: at rank 2, win_prob 0.5, the value at epa 10 is at
most the value at epa 50. -/
theorem value_monotone_in_epa_witness :
    ((0 : ℚ) ≤ 0.5 ∧ (10 : ℚ) ≤ 50) ∧
    (computeTeamValue ⟨2, 10, 0.5⟩).value ≤
      (computeTeamValue ⟨2, 50, 0.5⟩).value :=
  ⟨⟨by norm_num, by norm_num⟩,
   value_monotone_in_epa 2 0.5 10 50 (by norm_num) (by norm_num)⟩

/-- C6: for any two alliance valuations with equal allianceValue and
positive totalValue, suggestOverUnder returns per-side lines both equal to
baseLine (and matchLine equal to baseLine as well), and both payout
multipliers equal to 1.01, the floored value of a pre-floor payout of
exactly 1.0. -/
theorem equal_value_suggestion (red blue : AllianceValuation)
    (hv : red.allianceValue = blue.allianceValue)
    (ht : 0 < totalValueOf red blue) :
    (suggestOverUnder red blue).red.line = (suggestOverUnder red blue).baseLine ∧
    (suggestOverUnder red blue).blue.line = (suggestOverUnder red blue).baseLine ∧
    (suggestOverUnder red blue).matchLine = (suggestOverUnder red blue).baseLine ∧
    1 + (1 - red.allianceValue / avgValueOf red blue) * 0.5 = 1 ∧
    1 + (1 - blue.allianceValue / avgValueOf red blue) * 0.5 = 1 ∧
    (suggestOverUnder red blue).red.payoutMultiplier = 1.01 ∧
    (suggestOverUnder red blue).blue.payoutMultiplier = 1.01 := by
  have hb : 0 < blue.allianceValue := by
    have h2 := ht
    rw [totalValueOf, hv] at h2
    linarith
  have htne : totalValueOf red blue ≠ 0 := ne_of_gt ht
  have h2b : blue.allianceValue + blue.allianceValue ≠ 0 :=
    ne_of_gt (by linarith)
  have hsr : redShareOf red blue = 0.5 := by
    rw [redShareOf, jsOrOne, if_neg htne, totalValueOf, hv, div_eq_iff h2b]
    ring
  have hsb : blueShareOf red blue = 0.5 := by
    rw [blueShareOf, jsOrOne, if_neg htne, totalValueOf, hv, div_eq_iff h2b]
    ring
  have hdr : redDeltaOf red blue = 0 := by
    rw [redDeltaOf, hsr]
    ring
  have hdb : blueDeltaOf red blue = 0 := by
    rw [blueDeltaOf, hsb]
    ring
  have hrl : redLineOf red blue = baseLineOf red blue := by
    simp only [redLineOf, hdr, add_zero]
    exact round1_baseLineOf red blue
  have hbl : blueLineOf red blue = baseLineOf red blue := by
    simp only [blueLineOf, hdb, add_zero]
    exact round1_baseLineOf red blue
  have hml : matchLineOf red blue = baseLineOf red blue := by
    simp only [matchLineOf, hrl, hbl]
    have h3 : (baseLineOf red blue + baseLineOf red blue) / 2 = baseLineOf red blue := by
      ring
    rw [h3]
    exact round1_baseLineOf red blue
  have havg : avgValueOf red blue = blue.allianceValue := by
    rw [avgValueOf, hv]
    have h4 : (blue.allianceValue + blue.allianceValue) / 2 = blue.allianceValue := by
      ring
    rw [h4, jsOrOne, if_neg (ne_of_gt hb)]
  have hfr : 1 + (1 - red.allianceValue / avgValueOf red blue) * 0.5 = 1 := by
    rw [havg, hv, div_self (ne_of_gt hb)]
    ring
  have hfb : 1 + (1 - blue.allianceValue / avgValueOf red blue) * 0.5 = 1 := by
    rw [havg, div_self (ne_of_gt hb)]
    ring
  have hpr : redPayoutOf red blue = 1.01 := by
    rw [redPayoutOf, hfr]
    exact max_eq_left (by norm_num)
  have hpb : bluePayoutOf red blue = 1.01 := by
    rw [bluePayoutOf, hfb]
    exact max_eq_left (by norm_num)
  refine ⟨hrl, hbl, hml, hfr, hfb, ?_, ?_⟩
  · show round2 (redPayoutOf red blue) = 1.01
    rw [hpr]
    exact round2_const
  · show round2 (bluePayoutOf red blue) = 1.01
    rw [hpb]
    exact round2_const

/-- Witness for C6: two alliance valuations both of value 3 with EPAs
82.1 and 75.0. -/
theorem equal_value_suggestion_witness :
    ((⟨[], 3, 82.1⟩ : AllianceValuation).allianceValue =
        (⟨[], 3, 75.0⟩ : AllianceValuation).allianceValue ∧
      0 < totalValueOf ⟨[], 3, 82.1⟩ ⟨[], 3, 75.0⟩) ∧
    ((suggestOverUnder ⟨[], 3, 82.1⟩ ⟨[], 3, 75.0⟩).red.line =
        (suggestOverUnder ⟨[], 3, 82.1⟩ ⟨[], 3, 75.0⟩).baseLine ∧
      (suggestOverUnder ⟨[], 3, 82.1⟩ ⟨[], 3, 75.0⟩).blue.line =
        (suggestOverUnder ⟨[], 3, 82.1⟩ ⟨[], 3, 75.0⟩).baseLine ∧
      (suggestOverUnder ⟨[], 3, 82.1⟩ ⟨[], 3, 75.0⟩).matchLine =
        (suggestOverUnder ⟨[], 3, 82.1⟩ ⟨[], 3, 75.0⟩).baseLine ∧
      1 + (1 - (⟨[], 3, 82.1⟩ : AllianceValuation).allianceValue /
        avgValueOf ⟨[], 3, 82.1⟩ ⟨[], 3, 75.0⟩) * 0.5 = 1 ∧
      1 + (1 - (⟨[], 3, 75.0⟩ : AllianceValuation).allianceValue /
        avgValueOf ⟨[], 3, 82.1⟩ ⟨[], 3, 75.0⟩) * 0.5 = 1 ∧
      (suggestOverUnder ⟨[], 3, 82.1⟩ ⟨[], 3, 75.0⟩).red.payoutMultiplier = 1.01 ∧
      (suggestOverUnder ⟨[], 3, 82.1⟩ ⟨[], 3, 75.0⟩).blue.payoutMultiplier = 1.01) := by
  have hv : (⟨[], 3, 82.1⟩ : AllianceValuation).allianceValue =
      (⟨[], 3, 75.0⟩ : AllianceValuation).allianceValue := rfl
  have ht : 0 < totalValueOf ⟨[], 3, 82.1⟩ ⟨[], 3, 75.0⟩ := by
    norm_num [totalValueOf]
  exact ⟨⟨hv, ht⟩, equal_value_suggestion ⟨[], 3, 82.1⟩ ⟨[], 3, 75.0⟩ hv ht⟩

/-- The absolute value of a line adjustment (share - 0.5) * 0.2 * L is at
most a tenth of the absolute base line when the share lies in [0,1]. -/
lemma abs_delta_le {s L : ℚ} (h0 : 0 ≤ s) (h1 : s ≤ 1) :
    |(s - 0.5) * 0.2 * L| ≤ 0.1 * |L| := by
  rw [abs_mul, abs_mul]
  have h2 : |s - 0.5| ≤ 0.5 := abs_le.mpr ⟨by linarith, by linarith⟩
  have h3 : |(0.2 : ℚ)| = 0.2 := by
    rw [abs_of_nonneg]
    norm_num
  rw [h3]
  calc |s - 0.5| * 0.2 * |L| ≤ 0.5 * 0.2 * |L| := by
        apply mul_le_mul_of_nonneg_right _ (abs_nonneg L)
        exact mul_le_mul_of_nonneg_right h2 (by norm_num)
  _ = 0.1 * |L| := by ring

/-- C8: whenever both value shares lie in [0,1], each line adjustment
delta = (share - 0.5) * 0.2 * baseLine has absolute value at most
0.1 * |baseLine|: the line moves by at most ten percent of baseLine even
at a fully lopsided share. -/
theorem delta_bounded_by_tenth (red blue : AllianceValuation)
    (hr0 : 0 ≤ redShareOf red blue) (hr1 : redShareOf red blue ≤ 1)
    (hb0 : 0 ≤ blueShareOf red blue) (hb1 : blueShareOf red blue ≤ 1) :
    |redDeltaOf red blue| ≤ 0.1 * |baseLineOf red blue| ∧
    |blueDeltaOf red blue| ≤ 0.1 * |baseLineOf red blue| := by
  constructor
  · show |(redShareOf red blue - 0.5) * 0.2 * baseLineOf red blue| ≤ _
    exact abs_delta_le hr0 hr1
  · show |(blueShareOf red blue - 0.5) * 0.2 * baseLineOf red blue| ≤ _
    exact abs_delta_le hb0 hb1

/-- Witness for C8: two alliances both of value 1 have shares exactly one
half, and the deltas are bounded by a tenth of the base line. -/
theorem delta_bounded_by_tenth_witness :
    (0 ≤ redShareOf ⟨[], 1, 0⟩ ⟨[], 1, 0⟩ ∧
      redShareOf ⟨[], 1, 0⟩ ⟨[], 1, 0⟩ ≤ 1 ∧
      0 ≤ blueShareOf ⟨[], 1, 0⟩ ⟨[], 1, 0⟩ ∧
      blueShareOf ⟨[], 1, 0⟩ ⟨[], 1, 0⟩ ≤ 1) ∧
    (|redDeltaOf ⟨[], 1, 0⟩ ⟨[], 1, 0⟩| ≤
        0.1 * |baseLineOf ⟨[], 1, 0⟩ ⟨[], 1, 0⟩| ∧
      |blueDeltaOf ⟨[], 1, 0⟩ ⟨[], 1, 0⟩| ≤
        0.1 * |baseLineOf ⟨[], 1, 0⟩ ⟨[], 1, 0⟩|) := by
  have hr0 : 0 ≤ redShareOf ⟨[], 1, 0⟩ ⟨[], 1, 0⟩ := by
    norm_num [redShareOf, jsOrOne, totalValueOf]
  have hr1 : redShareOf ⟨[], 1, 0⟩ ⟨[], 1, 0⟩ ≤ 1 := by
    norm_num [redShareOf, jsOrOne, totalValueOf]
  have hb0 : 0 ≤ blueShareOf ⟨[], 1, 0⟩ ⟨[], 1, 0⟩ := by
    norm_num [blueShareOf, jsOrOne, totalValueOf]
  have hb1 : blueShareOf ⟨[], 1, 0⟩ ⟨[], 1, 0⟩ ≤ 1 := by
    norm_num [blueShareOf, jsOrOne, totalValueOf]
  exact ⟨⟨hr0, hr1, hb0, hb1⟩,
    delta_bounded_by_tenth ⟨[], 1, 0⟩ ⟨[], 1, 0⟩ hr0 hr1 hb0 hb1⟩

/-- C9: on the example scenario (red EPAs 38.5, 28.4, 15.2 at ranks
1, 3, 5 and blue EPAs 34.1, 26.0, 14.9 at ranks 2, 4, 6), the pipeline
gives allianceEPA(red) = 82.1, allianceEPA(blue) = 75.0, and
baseLine = round1(78.55) = 78.6 under the half-up rounding the source
uses. -/
theorem example_scenario_lines :
    (computeAllianceValue [⟨1, 38.5, 0.78⟩, ⟨3, 28.4, 0.62⟩,
      ⟨5, 15.2, 0.43⟩]).allianceEPA = 82.1 ∧
    (computeAllianceValue [⟨2, 34.1, 0.73⟩, ⟨4, 26.0, 0.59⟩,
      ⟨6, 14.9, 0.41⟩]).allianceEPA = 75.0 ∧
    baseLineOf
      (computeAllianceValue [⟨1, 38.5, 0.78⟩, ⟨3, 28.4, 0.62⟩, ⟨5, 15.2, 0.43⟩])
      (computeAllianceValue [⟨2, 34.1, 0.73⟩, ⟨4, 26.0, 0.59⟩, ⟨6, 14.9, 0.41⟩]) =
      78.6 := by
  have hr : (computeAllianceValue [⟨1, 38.5, 0.78⟩, ⟨3, 28.4, 0.62⟩,
      ⟨5, 15.2, 0.43⟩]).allianceEPA = 82.1 := by
    norm_num [computeAllianceValue]
  have hb : (computeAllianceValue [⟨2, 34.1, 0.73⟩, ⟨4, 26.0, 0.59⟩,
      ⟨6, 14.9, 0.41⟩]).allianceEPA = 75.0 := by
    norm_num [computeAllianceValue]
  refine ⟨hr, hb, ?_⟩
  simp only [baseLineOf, hr, hb]
  norm_num [round1, round_eq]

/-! ### Symmetry lemmas for C10 -/

lemma baseLineOf_comm (a b : AllianceValuation) :
    baseLineOf b a = baseLineOf a b := by
  simp only [baseLineOf]
  rw [add_comm]

lemma jsOrOne_total_comm (a b : AllianceValuation) :
    jsOrOne (totalValueOf b a) = jsOrOne (totalValueOf a b) := by
  simp only [totalValueOf]
  rw [add_comm]

lemma redShareOf_swap (a b : AllianceValuation) :
    redShareOf b a = blueShareOf a b := by
  simp only [redShareOf, blueShareOf, jsOrOne_total_comm]

lemma blueShareOf_swap (a b : AllianceValuation) :
    blueShareOf b a = redShareOf a b := by
  simp only [redShareOf, blueShareOf, jsOrOne_total_comm]

lemma redDeltaOf_swap (a b : AllianceValuation) :
    redDeltaOf b a = blueDeltaOf a b := by
  simp only [redDeltaOf, blueDeltaOf, redShareOf_swap, baseLineOf_comm]

lemma blueDeltaOf_swap (a b : AllianceValuation) :
    blueDeltaOf b a = redDeltaOf a b := by
  simp only [redDeltaOf, blueDeltaOf, blueShareOf_swap, baseLineOf_comm]

lemma redLineOf_swap (a b : AllianceValuation) :
    redLineOf b a = blueLineOf a b := by
  simp only [redLineOf, blueLineOf, redDeltaOf_swap, baseLineOf_comm]

lemma blueLineOf_swap (a b : AllianceValuation) :
    blueLineOf b a = redLineOf a b := by
  simp only [redLineOf, blueLineOf, blueDeltaOf_swap, baseLineOf_comm]

lemma matchLineOf_comm (a b : AllianceValuation) :
    matchLineOf b a = matchLineOf a b := by
  simp only [matchLineOf]
  rw [redLineOf_swap a b, blueLineOf_swap a b,
    add_comm (blueLineOf a b) (redLineOf a b)]

lemma avgValueOf_comm (a b : AllianceValuation) :
    avgValueOf b a = avgValueOf a b := by
  simp only [avgValueOf]
  rw [add_comm]

lemma redPayoutOf_swap (a b : AllianceValuation) :
    redPayoutOf b a = bluePayoutOf a b := by
  simp only [redPayoutOf, bluePayoutOf, avgValueOf_comm]

lemma bluePayoutOf_swap (a b : AllianceValuation) :
    bluePayoutOf b a = redPayoutOf a b := by
  simp only [redPayoutOf, bluePayoutOf, avgValueOf_comm]

/-- C10: suggestOverUnder is symmetric under swapping its two arguments:
baseLine and matchLine are unchanged, and the red-side record of the
swapped call equals the blue-side record of the original call and vice
versa. -/
theorem suggest_over_under_symm (red blue : AllianceValuation) :
    (suggestOverUnder blue red).baseLine = (suggestOverUnder red blue).baseLine ∧
    (suggestOverUnder blue red).matchLine = (suggestOverUnder red blue).matchLine ∧
    (suggestOverUnder blue red).red = (suggestOverUnder red blue).blue ∧
    (suggestOverUnder blue red).blue = (suggestOverUnder red blue).red := by
  refine ⟨baseLineOf_comm red blue, matchLineOf_comm red blue, ?_, ?_⟩
  · show SideSuggestion.mk (redLineOf blue red) blue.allianceValue
        (round2 (redPayoutOf blue red)) =
      SideSuggestion.mk (blueLineOf red blue) blue.allianceValue
        (round2 (bluePayoutOf red blue))
    rw [redLineOf_swap, redPayoutOf_swap]
  · show SideSuggestion.mk (blueLineOf blue red) red.allianceValue
        (round2 (bluePayoutOf blue red)) =
      SideSuggestion.mk (redLineOf red blue) red.allianceValue
        (round2 (redPayoutOf red blue))
    rw [blueLineOf_swap, bluePayoutOf_swap]

/-- C7: computeAllianceValue on the empty list of teams returns
allianceValue 0 and allianceEPA 0 without error. -/
theorem alliance_value_nil :
    (computeAllianceValue []).allianceValue = 0 ∧
    (computeAllianceValue []).allianceEPA = 0 :=
  ⟨rfl, rfl⟩

end Betting
